import Mathlib

/-!
Shallow embedding of the Solana counter program (`src/lib.rs`) and proofs of
the specification claims about it.

Modelling conventions:
* `u64` values are `Nat` together with the bound `< 2^64` (`u64Size`); the
  checked arithmetic of the source (`checked_add`, `checked_sub`) is modelled
  with explicit bound tests on `Nat`.
* Bytes are `Nat` (real byte buffers only ever contain values `< 256`; the
  buffers the theorems talk about are produced by the serializers, whose
  entries are `< 256` by construction).
* `Pubkey` is abstracted to `Nat`: the program only ever compares pubkeys for
  equality.
* An `AccountInfo` is reduced to the two fields the program reads or writes:
  its `owner` pubkey and its `data` byte buffer.  Keys, lamports and flags are
  never consulted by the handlers' logic (keys are only forwarded to the
  external system program) and are omitted.
* Each handler is a pure function from the account list to a
  `Except ProgramError Unit × List AccountInfo` pair: the result of the Rust
  function together with the account bytes as they stand when it returns.
  This makes "a failing call leaves the bytes unchanged" a real statement
  rather than one true by construction.
* The `msg!` log lines are diagnostics with no effect on state or result and
  are not modelled.
-/

namespace SolanaCounter

/-- Number of values of `u64`: `2^64`. `u64::MAX = u64Size - 1`. -/
def u64Size : Nat := 2 ^ 64

/-- The subset of `solana_program::program_error::ProgramError` this program
can produce.  `borshIoError` stands for `ProgramError::BorshIoError(_)`, the
error a bare `?` on a borsh (de)serialization failure converts to; its
`String` payload is abstracted away. -/
inductive ProgramError where
  | invalidInstructionData
  | accountAlreadyInitialized
  | incorrectProgramId
  | uninitializedAccount
  | invalidAccountData
  | notEnoughAccountKeys
  | borshIoError
  deriving DecidableEq, Repr

/-- The fields of `solana_program::account_info::AccountInfo` the program
reads or writes: the owner pubkey and the data byte buffer. -/
structure AccountInfo where
  owner : Nat
  data : List Nat
  deriving DecidableEq, Repr

/-- The `CounterInstruction` enum of `src/lib.rs` (u64 payloads as `Nat`). -/
inductive CounterInstruction where
  | initializeCounter (initial_value : Nat)
  | incrementCounter (step : Option Nat)
  | decrementCounter (step : Option Nat)
  deriving DecidableEq, Repr

/-- `u64::checked_add` on the `Nat` embedding: `none` exactly when the sum
exceeds `u64::MAX`. -/
def checked_add (a b : Nat) : Option Nat :=
  if a + b < u64Size then some (a + b) else none

/-- `u64::checked_sub` on the `Nat` embedding: `none` exactly when the
subtrahend exceeds the minuend. -/
def checked_sub (a b : Nat) : Option Nat :=
  if b ≤ a then some (a - b) else none

/-- Little-endian byte encoding of a `u64` (borsh's encoding of `u64`):
exactly 8 bytes. -/
def u64ToLeBytes (n : Nat) : List Nat :=
  [n % 256, n / 256 % 256, n / 65536 % 256, n / 16777216 % 256,
   n / 4294967296 % 256, n / 1099511627776 % 256,
   n / 281474976710656 % 256, n / 72057594037927936 % 256]

/-- Value of 8 little-endian bytes. -/
def leBytesToU64 (b0 b1 b2 b3 b4 b5 b6 b7 : Nat) : Nat :=
  b0 + 256 * b1 + 65536 * b2 + 16777216 * b3 + 4294967296 * b4 +
    1099511627776 * b5 + 281474976710656 * b6 + 72057594037927936 * b7

/-- Borsh read of a `u64`: consume 8 little-endian bytes, fail on a shorter
buffer. -/
def readU64 : List Nat → Option (Nat × List Nat)
  | b0 :: b1 :: b2 :: b3 :: b4 :: b5 :: b6 :: b7 :: rest =>
      some (leBytesToU64 b0 b1 b2 b3 b4 b5 b6 b7, rest)
  | _ => none

/-- Borsh read of an `Option<u64>`: a presence flag byte that must be `0`
(absent) or `1` (present, followed by 8 bytes); any other flag is an error. -/
def readOptionU64 : List Nat → Option (Option Nat × List Nat)
  | 0 :: rest => some (none, rest)
  | 1 :: rest =>
      match readU64 rest with
      | some (v, rest2) => some (some v, rest2)
      | none => none
  | _ => none

/-- Borsh serialization of `CounterAccount { count }`: the bare 8-byte
little-endian `u64`, no header, no version tag. -/
def serializeCounterAccount (count : Nat) : List Nat :=
  u64ToLeBytes count

/-- `CounterAccount::try_from_slice`: a `u64` that must consume the whole
buffer, i.e. the buffer is exactly 8 bytes. -/
def deserializeCounterAccount : List Nat → Option Nat
  | [b0, b1, b2, b3, b4, b5, b6, b7] => some (leBytesToU64 b0 b1 b2 b3 b4 b5 b6 b7)
  | _ => none

/-- Borsh serialization of `CounterInstruction` (`borsh::to_vec`): one tag
byte selecting the variant, then the fields; `Option<u64>` is a 1-byte
presence flag followed by 8 bytes if present. -/
def serializeCounterInstruction : CounterInstruction → List Nat
  | .initializeCounter v => 0 :: u64ToLeBytes v
  | .incrementCounter none => [1, 0]
  | .incrementCounter (some s) => 1 :: 1 :: u64ToLeBytes s
  | .decrementCounter none => [2, 0]
  | .decrementCounter (some s) => 2 :: 1 :: u64ToLeBytes s

/-- `CounterInstruction::try_from_slice`: read the tag byte, then the
variant's payload, and require the whole buffer to be consumed. -/
def deserializeCounterInstruction (bs : List Nat) : Option CounterInstruction :=
  match bs with
  | 0 :: rest =>
      match readU64 rest with
      | some (v, []) => some (.initializeCounter v)
      | _ => none
  | 1 :: rest =>
      match readOptionU64 rest with
      | some (s, []) => some (.incrementCounter s)
      | _ => none
  | 2 :: rest =>
      match readOptionU64 rest with
      | some (s, []) => some (.decrementCounter s)
      | _ => none
  | _ => none

/-- Model of `serialize(&mut &mut data[..])` (a `write_all` into a fixed-size
slice): if the slice holds the serialized bytes they are written at the front,
leaving any tail bytes behind; a shorter slice is filled with a prefix of the
bytes and the call fails with the `ProgramError` a `?` converts the
`WriteZero` io error to (`borshIoError`). -/
def writeAll (src dst : List Nat) : Except ProgramError Unit × List Nat :=
  if src.length ≤ dst.length then
    (.ok (), src ++ dst.drop src.length)
  else
    (.error .borshIoError, src.take dst.length)

/-- Modelled from the spec: the external system program's `create_account`
(reached through `invoke` in `process_initialize_counter`; its code is not
part of this repository).  Per §4.2/§6 it allocates `space` zero bytes of
storage for the target account, owned by `program_id`, funded by the payer at
the host rent model's minimum balance (lamport movements are outside the
model). -/
def invoke_create_account (program_id space : Nat) : AccountInfo :=
  { owner := program_id, data := List.replicate space 0 }

/-- `process_initialize_counter` of `src/lib.rs`.  `next_account_info` yields
`NotEnoughAccountKeys` when the positional account list is exhausted;
`std::mem::size_of::<CounterAccount>()` is 8. -/
def process_initialize_counter (program_id : Nat) (accounts : List AccountInfo)
    (initial_value : Nat) : Except ProgramError Unit × List AccountInfo :=
  match accounts with
  | counter_account :: payer_account :: system_program :: rest =>
      if 0 < counter_account.data.length then
        (.error .accountAlreadyInitialized,
         counter_account :: payer_account :: system_program :: rest)
      else
        let account_space := 8
        let created := invoke_create_account program_id account_space
        let w := writeAll (serializeCounterAccount initial_value) created.data
        (w.1, { created with data := w.2 } :: payer_account :: system_program :: rest)
  | _ => (.error .notEnoughAccountKeys, accounts)

/-- `process_increment_counter` of `src/lib.rs`. -/
def process_increment_counter (program_id : Nat) (accounts : List AccountInfo)
    (step : Option Nat) : Except ProgramError Unit × List AccountInfo :=
  let step_value := step.getD 1
  match accounts with
  | [] => (.error .notEnoughAccountKeys, [])
  | counter_account :: rest =>
      if counter_account.owner ≠ program_id then
        (.error .incorrectProgramId, counter_account :: rest)
      else if counter_account.data.length = 0 then
        (.error .uninitializedAccount, counter_account :: rest)
      else
        match deserializeCounterAccount counter_account.data with
        | none => (.error .borshIoError, counter_account :: rest)
        | some count =>
            match checked_add count step_value with
            | none => (.error .invalidAccountData, counter_account :: rest)
            | some newCount =>
                let w := writeAll (serializeCounterAccount newCount) counter_account.data
                (w.1, { counter_account with data := w.2 } :: rest)

/-- `process_decrement_counter` of `src/lib.rs`. -/
def process_decrement_counter (program_id : Nat) (accounts : List AccountInfo)
    (step : Option Nat) : Except ProgramError Unit × List AccountInfo :=
  let step_value := step.getD 1
  match accounts with
  | [] => (.error .notEnoughAccountKeys, [])
  | counter_account :: rest =>
      if counter_account.owner ≠ program_id then
        (.error .incorrectProgramId, counter_account :: rest)
      else if counter_account.data.length = 0 then
        (.error .uninitializedAccount, counter_account :: rest)
      else
        match deserializeCounterAccount counter_account.data with
        | none => (.error .borshIoError, counter_account :: rest)
        | some count =>
            match checked_sub count step_value with
            | none => (.error .invalidAccountData, counter_account :: rest)
            | some newCount =>
                let w := writeAll (serializeCounterAccount newCount) counter_account.data
                (w.1, { counter_account with data := w.2 } :: rest)

/-- `process_instruction` of `src/lib.rs`: decode the instruction buffer
(`InvalidInstructionData` on failure) and route by variant. -/
def process_instruction (program_id : Nat) (accounts : List AccountInfo)
    (instruction_data : List Nat) : Except ProgramError Unit × List AccountInfo :=
  match deserializeCounterInstruction instruction_data with
  | none => (.error .invalidInstructionData, accounts)
  | some (.initializeCounter initial_value) =>
      process_initialize_counter program_id accounts initial_value
  | some (.incrementCounter step) =>
      process_increment_counter program_id accounts step
  | some (.decrementCounter step) =>
      process_decrement_counter program_id accounts step

/-- Well-formedness of an instruction value: every payload fits in `u64`. -/
def wfInstruction : CounterInstruction → Prop
  | .initializeCounter v => v < u64Size
  | .incrementCounter none => True
  | .incrementCounter (some s) => s < u64Size
  | .decrementCounter none => True
  | .decrementCounter (some s) => s < u64Size

instance : DecidablePred wfInstruction := by
  intro x
  cases x with
  | initializeCounter v => exact inferInstanceAs (Decidable (v < u64Size))
  | incrementCounter s =>
      cases s with
      | none => exact inferInstanceAs (Decidable True)
      | some v => exact inferInstanceAs (Decidable (v < u64Size))
  | decrementCounter s =>
      cases s with
      | none => exact inferInstanceAs (Decidable True)
      | some v => exact inferInstanceAs (Decidable (v < u64Size))

/-! Helper lemmas about the byte codecs. -/

theorem serializeCounterAccount_length (c : Nat) :
    (serializeCounterAccount c).length = 8 := rfl

theorem leBytes_roundtrip (n : Nat) (hn : n < u64Size) :
    leBytesToU64 (n % 256) (n / 256 % 256) (n / 65536 % 256) (n / 16777216 % 256)
      (n / 4294967296 % 256) (n / 1099511627776 % 256)
      (n / 281474976710656 % 256) (n / 72057594037927936 % 256) = n := by
  unfold leBytesToU64
  unfold u64Size at hn
  omega

theorem deserializeCounterAccount_serialize (c : Nat) (hc : c < u64Size) :
    deserializeCounterAccount (serializeCounterAccount c) = some c := by
  show some _ = some c
  rw [leBytes_roundtrip c hc]

theorem deserializeCounterAccount_length {bs : List Nat} {c : Nat}
    (h : deserializeCounterAccount bs = some c) : bs.length = 8 := by
  unfold deserializeCounterAccount at h
  split at h
  · simp_all
  · exact absurd h (by simp)

theorem writeAll_serialize (n c : Nat) :
    writeAll (serializeCounterAccount n) (serializeCounterAccount c) =
      (.ok (), serializeCounterAccount n) := by
  simp [writeAll, serializeCounterAccount, u64ToLeBytes]

theorem writeAll_of_length_eight {dst : List Nat} (h : dst.length = 8) (n : Nat) :
    writeAll (serializeCounterAccount n) dst = (.ok (), serializeCounterAccount n) := by
  simp [writeAll, serializeCounterAccount_length, h, List.drop_eq_nil_of_le, h.le]

/-! Claim theorems. -/

/-- C1: on an initialized counter holding `c`, `IncrementCounter` with step
`Some s` succeeds and stores `c + s` exactly when `c + s` fits in `u64`, fails
(with `InvalidAccountData`, leaving the bytes unchanged) when `c + s` would
exceed `u64::MAX`, and with step `None` behaves as step 1, yielding `c + 1`
when `c + 1 ≤ u64::MAX`. -/
theorem increment_correct (pid c s : Nat) (rest : List AccountInfo)
    (hc : c < u64Size) (_hs : s < u64Size) :
    (c + s < u64Size →
      process_increment_counter pid (⟨pid, serializeCounterAccount c⟩ :: rest) (some s) =
        (.ok (), ⟨pid, serializeCounterAccount (c + s)⟩ :: rest)) ∧
    (u64Size ≤ c + s →
      process_increment_counter pid (⟨pid, serializeCounterAccount c⟩ :: rest) (some s) =
        (.error .invalidAccountData, ⟨pid, serializeCounterAccount c⟩ :: rest)) ∧
    (process_increment_counter pid (⟨pid, serializeCounterAccount c⟩ :: rest) none =
      process_increment_counter pid (⟨pid, serializeCounterAccount c⟩ :: rest) (some 1)) := by
  refine ⟨?_, ?_, ?_⟩
  · intro h
    simp [process_increment_counter, serializeCounterAccount_length,
      deserializeCounterAccount_serialize c hc, checked_add, h, writeAll_serialize]
  · intro h
    simp [process_increment_counter, serializeCounterAccount_length,
      deserializeCounterAccount_serialize c hc, checked_add, Nat.not_lt_of_ge h]
  · rfl

/-- C2: on an initialized counter holding `c`, `DecrementCounter` with step
`Some s` succeeds and stores `c - s` exactly when `s ≤ c`, fails (with
`InvalidAccountData`, leaving the bytes unchanged) when `s > c`, and with step
`None` behaves as step 1.  The stored count therefore never goes below zero. -/
theorem decrement_correct (pid c s : Nat) (rest : List AccountInfo)
    (hc : c < u64Size) (_hs : s < u64Size) :
    (s ≤ c →
      process_decrement_counter pid (⟨pid, serializeCounterAccount c⟩ :: rest) (some s) =
        (.ok (), ⟨pid, serializeCounterAccount (c - s)⟩ :: rest)) ∧
    (c < s →
      process_decrement_counter pid (⟨pid, serializeCounterAccount c⟩ :: rest) (some s) =
        (.error .invalidAccountData, ⟨pid, serializeCounterAccount c⟩ :: rest)) ∧
    (process_decrement_counter pid (⟨pid, serializeCounterAccount c⟩ :: rest) none =
      process_decrement_counter pid (⟨pid, serializeCounterAccount c⟩ :: rest) (some 1)) := by
  refine ⟨?_, ?_, ?_⟩
  · intro h
    simp [process_decrement_counter, serializeCounterAccount_length,
      deserializeCounterAccount_serialize c hc, checked_sub, h, writeAll_serialize]
  · intro h
    simp [process_decrement_counter, serializeCounterAccount_length,
      deserializeCounterAccount_serialize c hc, checked_sub, Nat.not_le_of_lt h]
  · rfl

theorem increment_correct_witness :
    process_increment_counter 7 [⟨7, serializeCounterAccount 42⟩] (some 5) =
      (.ok (), [⟨7, serializeCounterAccount 47⟩]) :=
  (increment_correct 7 42 5 [] (by decide) (by decide)).1 (by decide)

theorem decrement_correct_witness :
    process_decrement_counter 7 [⟨7, serializeCounterAccount 42⟩] (some 5) =
      (.ok (), [⟨7, serializeCounterAccount 37⟩]) :=
  (decrement_correct 7 42 5 [] (by decide) (by decide)).1 (by decide)

/-- C5: Increment and Decrement check ownership before initialization: a
target account whose owner differs from the program id fails with
`IncorrectProgramId` (whatever its data, empty included), and only an
account with the right owner but empty storage fails with
`UninitializedAccount`.  In particular a wrongly owned empty account yields
`IncorrectProgramId`. -/
theorem precondition_order (pid : Nat) (a : AccountInfo) (rest : List AccountInfo)
    (s : Option Nat) :
    (a.owner ≠ pid →
      (process_increment_counter pid (a :: rest) s).1 = .error .incorrectProgramId ∧
      (process_decrement_counter pid (a :: rest) s).1 = .error .incorrectProgramId) ∧
    (a.owner = pid → a.data = [] →
      (process_increment_counter pid (a :: rest) s).1 = .error .uninitializedAccount ∧
      (process_decrement_counter pid (a :: rest) s).1 = .error .uninitializedAccount) := by
  constructor
  · intro h
    constructor <;> simp [process_increment_counter, process_decrement_counter, h]
  · intro h hdata
    constructor <;>
      simp [process_increment_counter, process_decrement_counter, h, hdata]

theorem precondition_order_witness :
    ((AccountInfo.mk 3 []).owner ≠ 7 ∧
      (process_increment_counter 7 [⟨3, []⟩] none).1 = .error .incorrectProgramId ∧
      (process_decrement_counter 7 [⟨3, []⟩] none).1 = .error .incorrectProgramId) :=
  ⟨by decide, (precondition_order 7 ⟨3, []⟩ [] none).1 (by decide)⟩

/-- C6: `InitializeCounter { initial_value := v }` on a target account with
empty storage succeeds, and the account afterwards holds exactly the 8-byte
little-endian encoding of `v` (no header or version tag); decoding it back
yields `count = v`. -/
theorem initialize_correct (pid v : Nat) (counter payer sys : AccountInfo)
    (rest : List AccountInfo) (hv : v < u64Size) (hempty : counter.data = []) :
    process_initialize_counter pid (counter :: payer :: sys :: rest) v =
      (.ok (), ⟨pid, serializeCounterAccount v⟩ :: payer :: sys :: rest) ∧
    (serializeCounterAccount v).length = 8 ∧
    deserializeCounterAccount (serializeCounterAccount v) = some v := by
  refine ⟨?_, rfl, deserializeCounterAccount_serialize v hv⟩
  simp [process_initialize_counter, hempty, invoke_create_account, writeAll,
    serializeCounterAccount, u64ToLeBytes]

theorem initialize_correct_witness :
    process_initialize_counter 7 [⟨0, []⟩, ⟨0, [1]⟩, ⟨0, []⟩] 42 =
      (.ok (), [⟨7, serializeCounterAccount 42⟩, ⟨0, [1]⟩, ⟨0, []⟩]) :=
  (initialize_correct 7 42 ⟨0, []⟩ ⟨0, [1]⟩ ⟨0, []⟩ [] (by decide) rfl).1

/-- C7: `InitializeCounter` on a target account with non-empty storage fails
with `AccountAlreadyInitialized` and leaves every account, the stored value
included, unchanged. -/
theorem initialize_already_initialized (pid v : Nat) (counter payer sys : AccountInfo)
    (rest : List AccountInfo) (h : 0 < counter.data.length) :
    process_initialize_counter pid (counter :: payer :: sys :: rest) v =
      (.error .accountAlreadyInitialized, counter :: payer :: sys :: rest) := by
  simp [process_initialize_counter, h]

theorem initialize_already_initialized_witness :
    process_initialize_counter 7 [⟨7, serializeCounterAccount 5⟩, ⟨0, []⟩, ⟨0, []⟩] 42 =
      (.error .accountAlreadyInitialized,
        [⟨7, serializeCounterAccount 5⟩, ⟨0, []⟩, ⟨0, []⟩]) :=
  initialize_already_initialized 7 42 ⟨7, serializeCounterAccount 5⟩ ⟨0, []⟩ ⟨0, []⟩ []
    (by decide)

/-- C9: a step of `Some 0` is accepted by both Increment and Decrement (there
is no positivity check) and acts as the identity on an initialized counter
holding `c`: the call succeeds and the stored bytes are unchanged. -/
theorem step_zero_identity (pid c : Nat) (rest : List AccountInfo)
    (hc : c < u64Size) :
    process_increment_counter pid (⟨pid, serializeCounterAccount c⟩ :: rest) (some 0) =
      (.ok (), ⟨pid, serializeCounterAccount c⟩ :: rest) ∧
    process_decrement_counter pid (⟨pid, serializeCounterAccount c⟩ :: rest) (some 0) =
      (.ok (), ⟨pid, serializeCounterAccount c⟩ :: rest) := by
  constructor
  · simp [process_increment_counter, serializeCounterAccount_length,
      deserializeCounterAccount_serialize c hc, checked_add, hc, writeAll_serialize]
  · simp [process_decrement_counter, serializeCounterAccount_length,
      deserializeCounterAccount_serialize c hc, checked_sub, writeAll_serialize]

theorem step_zero_identity_witness :
    process_increment_counter 7 [⟨7, serializeCounterAccount 42⟩] (some 0) =
      (.ok (), [⟨7, serializeCounterAccount 42⟩]) :=
  (step_zero_identity 7 42 [] (by decide)).1

/-- C10: too few account references fail with `NotEnoughAccountKeys` (an
error kind outside the spec's five-entry taxonomy) and leave every account
unchanged: Initialize with fewer than 3 references, Increment or Decrement
with an empty reference list. -/
theorem not_enough_account_keys (pid v : Nat) (s : Option Nat)
    (accounts : List AccountInfo) (h : accounts.length < 3) :
    process_initialize_counter pid accounts v =
      (.error .notEnoughAccountKeys, accounts) ∧
    process_increment_counter pid [] s = (.error .notEnoughAccountKeys, []) ∧
    process_decrement_counter pid [] s = (.error .notEnoughAccountKeys, []) := by
  refine ⟨?_, rfl, rfl⟩
  match accounts with
  | [] => rfl
  | [_] => rfl
  | [_, _] => rfl
  | _ :: _ :: _ :: _ => simp only [List.length_cons] at h; omega

theorem not_enough_account_keys_witness :
    process_initialize_counter 7 [⟨0, []⟩, ⟨0, []⟩] 42 =
      (.error .notEnoughAccountKeys, [⟨0, []⟩, ⟨0, []⟩]) :=
  (not_enough_account_keys 7 42 none [⟨0, []⟩, ⟨0, []⟩] (by decide)).1

theorem readU64_serialize (n : Nat) (hn : n < u64Size) :
    readU64 (u64ToLeBytes n) = some (n, []) := by
  show some _ = some _
  rw [leBytes_roundtrip n hn]

theorem readOptionU64_some (s : Nat) (hs : s < u64Size) :
    readOptionU64 (1 :: u64ToLeBytes s) = some (some s, []) := by
  show (match readU64 (u64ToLeBytes s) with
        | some (v, rest2) => some (some v, rest2)
        | none => none) = some (some s, [])
  rw [readU64_serialize s hs]

/-- C8: for every valid `CounterInstruction` (payloads in the `u64` range),
decoding the encoded bytes yields the instruction back:
`decode (encode x) = x`. -/
theorem instruction_roundtrip (x : CounterInstruction) (hx : wfInstruction x) :
    deserializeCounterInstruction (serializeCounterInstruction x) = some x := by
  cases x with
  | initializeCounter v =>
      show (match readU64 (u64ToLeBytes v) with
            | some (w, []) => some (CounterInstruction.initializeCounter w)
            | _ => none) = some (CounterInstruction.initializeCounter v)
      rw [readU64_serialize v hx]
  | incrementCounter s =>
      cases s with
      | none => rfl
      | some w =>
          show (match readOptionU64 (1 :: u64ToLeBytes w) with
                | some (t, []) => some (CounterInstruction.incrementCounter t)
                | _ => none) = some (CounterInstruction.incrementCounter (some w))
          rw [readOptionU64_some w hx]
  | decrementCounter s =>
      cases s with
      | none => rfl
      | some w =>
          show (match readOptionU64 (1 :: u64ToLeBytes w) with
                | some (t, []) => some (CounterInstruction.decrementCounter t)
                | _ => none) = some (CounterInstruction.decrementCounter (some w))
          rw [readOptionU64_some w hx]

theorem instruction_roundtrip_witness :
    deserializeCounterInstruction
        (serializeCounterInstruction (.incrementCounter (some 5))) =
      some (.incrementCounter (some 5)) :=
  instruction_roundtrip (.incrementCounter (some 5)) (by decide)

/-! Case lemmas used for the no-partial-mutation claim: every run of a
handler either leaves the account list exactly as given or returns `ok`. -/

theorem initialize_cases (pid v : Nat) (accounts : List AccountInfo) :
    (process_initialize_counter pid accounts v).2 = accounts ∨
    (process_initialize_counter pid accounts v).1 = .ok () := by
  match accounts with
  | [] => left; rfl
  | [_] => left; rfl
  | [_, _] => left; rfl
  | counter :: payer :: sys :: rest =>
      by_cases h : 0 < counter.data.length
      · left; simp [process_initialize_counter, h]
      · right
        simp [process_initialize_counter, h, invoke_create_account, writeAll,
          serializeCounterAccount, u64ToLeBytes]

theorem increment_cases (pid : Nat) (accounts : List AccountInfo) (s : Option Nat) :
    (process_increment_counter pid accounts s).2 = accounts ∨
    (process_increment_counter pid accounts s).1 = .ok () := by
  match accounts with
  | [] => left; rfl
  | counter :: rest =>
      by_cases ho : counter.owner ≠ pid
      · left; simp [process_increment_counter, ho]
      · by_cases hl : counter.data.length = 0
        · left; simp [process_increment_counter, ho, hl]
        · rcases hd : deserializeCounterAccount counter.data with _ | count
          · left; simp [process_increment_counter, ho, hl, hd]
          · rcases ha : checked_add count (s.getD 1) with _ | newCount
            · left; simp [process_increment_counter, ho, hl, hd, ha]
            · right
              simp [process_increment_counter, ho, hl, hd, ha,
                writeAll_of_length_eight (deserializeCounterAccount_length hd)]

theorem decrement_cases (pid : Nat) (accounts : List AccountInfo) (s : Option Nat) :
    (process_decrement_counter pid accounts s).2 = accounts ∨
    (process_decrement_counter pid accounts s).1 = .ok () := by
  match accounts with
  | [] => left; rfl
  | counter :: rest =>
      by_cases ho : counter.owner ≠ pid
      · left; simp [process_decrement_counter, ho]
      · by_cases hl : counter.data.length = 0
        · left; simp [process_decrement_counter, ho, hl]
        · rcases hd : deserializeCounterAccount counter.data with _ | count
          · left; simp [process_decrement_counter, ho, hl, hd]
          · rcases ha : checked_sub count (s.getD 1) with _ | newCount
            · left; simp [process_decrement_counter, ho, hl, hd, ha]
            · right
              simp [process_decrement_counter, ho, hl, hd, ha,
                writeAll_of_length_eight (deserializeCounterAccount_length hd)]

/-- C4: a failing `process_instruction` call leaves every account's stored
bytes byte-for-byte unchanged, for every instruction buffer and every
starting account state. -/
theorem failing_call_preserves_bytes (pid : Nat) (accounts : List AccountInfo)
    (instruction_data : List Nat) (e : ProgramError)
    (h : (process_instruction pid accounts instruction_data).1 = .error e) :
    (process_instruction pid accounts instruction_data).2 = accounts := by
  unfold process_instruction at h ⊢
  rcases hd : deserializeCounterInstruction instruction_data with _ | instr
  · rfl
  · rw [hd] at h
    cases instr with
    | initializeCounter v =>
        rcases initialize_cases pid v accounts with h2 | h2
        · exact h2
        · replace h : (process_initialize_counter pid accounts v).1 = Except.error e := h
          rw [h2] at h
          simp at h
    | incrementCounter s =>
        rcases increment_cases pid accounts s with h2 | h2
        · exact h2
        · replace h : (process_increment_counter pid accounts s).1 = Except.error e := h
          rw [h2] at h
          simp at h
    | decrementCounter s =>
        rcases decrement_cases pid accounts s with h2 | h2
        · exact h2
        · replace h : (process_decrement_counter pid accounts s).1 = Except.error e := h
          rw [h2] at h
          simp at h

theorem failing_call_preserves_bytes_witness :
    (process_instruction 0 [] [1, 0]).1 = .error .notEnoughAccountKeys ∧
    (process_instruction 0 [] [1, 0]).2 = [] :=
  ⟨rfl, failing_call_preserves_bytes 0 [] [1, 0] .notEnoughAccountKeys rfl⟩

/-- C3 counterexample: on an account owned by the program whose stored record
is 1 byte (non-empty but not decodable as a `CounterAccount`), Increment fails
with the borsh io error (`ProgramError::BorshIoError`), not with
`InvalidAccountData`: the bare `?` on `CounterAccount::try_from_slice`
converts the io error to `BorshIoError`. -/
theorem decode_failure_error_kind_counterexample :
    deserializeCounterAccount [0] = none ∧
    (process_increment_counter 5 [⟨5, [0]⟩] (some 1)).1 = .error .borshIoError ∧
    (process_increment_counter 5 [⟨5, [0]⟩] (some 1)).1 ≠ .error .invalidAccountData := by
  refine ⟨rfl, rfl, ?_⟩
  have h1 : (process_increment_counter 5 [⟨5, [0]⟩] (some 1)).1 =
      Except.error ProgramError.borshIoError := rfl
  rw [h1]
  simp

/-- C3 amended: an arithmetic invariant violation (overflow on increment,
underflow on decrement) fails with `InvalidAccountData`; a stored record that
cannot be decoded as a `CounterAccount` fails with the borsh io error
(`BorshIoError`), not `InvalidAccountData`. -/
theorem error_kinds (pid c s : Nat) (rest : List AccountInfo) (hc : c < u64Size) :
    (u64Size ≤ c + s →
      (process_increment_counter pid (⟨pid, serializeCounterAccount c⟩ :: rest)
          (some s)).1 = .error .invalidAccountData) ∧
    (c < s →
      (process_decrement_counter pid (⟨pid, serializeCounterAccount c⟩ :: rest)
          (some s)).1 = .error .invalidAccountData) ∧
    (∀ bs : List Nat, bs ≠ [] → deserializeCounterAccount bs = none →
      (process_increment_counter pid (⟨pid, bs⟩ :: rest) (some s)).1 =
          .error .borshIoError ∧
      (process_decrement_counter pid (⟨pid, bs⟩ :: rest) (some s)).1 =
          .error .borshIoError) := by
  refine ⟨?_, ?_, ?_⟩
  · intro h
    simp [process_increment_counter, serializeCounterAccount_length,
      deserializeCounterAccount_serialize c hc, checked_add, Nat.not_lt_of_ge h]
  · intro h
    simp [process_decrement_counter, serializeCounterAccount_length,
      deserializeCounterAccount_serialize c hc, checked_sub, Nat.not_le_of_lt h]
  · intro bs hne hd
    have hlen : bs.length ≠ 0 := by
      simpa [List.length_eq_zero] using hne
    constructor
    · simp [process_increment_counter, hlen, hd]
    · simp [process_decrement_counter, hlen, hd]

theorem error_kinds_witness :
    (process_decrement_counter 5 [⟨5, serializeCounterAccount 0⟩] (some 1)).1 =
      .error .invalidAccountData :=
  (error_kinds 5 0 1 [] (by decide)).2.1 (by decide)

end SolanaCounter
